import Mathlib

/-!
Verification of the PDG-Coding-Standards repository: the SBO owning handle
(`lib::Handle<Body, Size>` of `src/HandleImpl.v3.h`, whose indirect branch
coincides with the unique-pointer-only `lib::Handle<Body>` of
`src/HandleImpl.v2.h`), the `fits` storage-strategy predicate, the
`pdg::Survival` protocol of `src/Survival.hpp`, and the
`lib::PrintableValueProtocol` of `src/PrintableValueProtocol.hpp`.

Machine memory is embedded as an explicit heap: an association list from
addresses (`Nat`) to body values, together with a bump allocator and counters
of allocations and deallocations (so that frame/allocation claims are
statable).  A `std::unique_ptr<Body>` slot is an `Option Nat`: `none` is the
null pointer, `some a` owns the heap cell at address `a`.
-/

namespace Lib

/-- The heap backing dynamically allocated bodies.  `mem` maps live addresses
to body values; `next` is the bump-allocation frontier; `allocs` and
`deallocs` count the calls to the allocator made so far. -/
structure Heap (β : Type) where
  mem : List (Nat × β)
  next : Nat
  allocs : Nat
  deallocs : Nat
  deriving Repr, DecidableEq

/-- Address lookup in an association list. -/
def lookupList {β : Type} : List (Nat × β) → Nat → Option β
  | [], _ => none
  | (k, v) :: rest, a => if k = a then some v else lookupList rest a

/-- Read the body stored at address `a`, `none` if `a` is not live. -/
def Heap.lookup {β : Type} (h : Heap β) (a : Nat) : Option β :=
  lookupList h.mem a

/-- `operator new` / `std::make_unique<Body>(v)`: place `v` in a fresh cell and
return its address.  One allocation is counted. -/
def Heap.alloc {β : Type} (h : Heap β) (v : β) : Nat × Heap β :=
  (h.next, ⟨(h.next, v) :: h.mem, h.next + 1, h.allocs + 1, h.deallocs⟩)

/-- Remove every cell keyed `a` from an association list. -/
def freeList {β : Type} : List (Nat × β) → Nat → List (Nat × β)
  | [], _ => []
  | (k, u) :: rest, a =>
    if k = a then freeList rest a else (k, u) :: freeList rest a

/-- Overwrite every cell keyed `a` in an association list with value `v`. -/
def writeList {β : Type} : List (Nat × β) → Nat → β → List (Nat × β)
  | [], _, _ => []
  | (k, u) :: rest, a, v =>
    if k = a then (a, v) :: writeList rest a v
    else (k, u) :: writeList rest a v

/-- `operator delete` on a non-null owned pointer: the cell at `a` dies.
One deallocation is counted. -/
def Heap.free {β : Type} (h : Heap β) (a : Nat) : Heap β :=
  ⟨freeList h.mem a, h.next, h.allocs, h.deallocs + 1⟩

/-- Mutation of the body at address `a` (what a caller does through the
pointer returned by `operator->`). -/
def Heap.write {β : Type} (h : Heap β) (a : Nat) (v : β) : Heap β :=
  ⟨writeList h.mem a v, h.next, h.allocs, h.deallocs⟩

/-- Heap well-formedness: every live address is below the allocation frontier
and addresses are not duplicated. -/
def Heap.wf {β : Type} (h : Heap β) : Prop :=
  (∀ p ∈ h.mem, p.1 < h.next) ∧ (h.mem.map Prod.fst).Nodup

instance {β : Type} [DecidableEq β] (h : Heap β) : Decidable h.wf := by
  unfold Heap.wf; infer_instance

/-- The behaviour of the external body type `B` that the handle wraps:
its default value and the (valid but unspecified) value `B`'s own move
operations leave in a moved-from `B` object. -/
structure BodyType (β : Type) where
  default : β
  moved : β → β

/-! ## Indirect representation (`!fits<Body, Size>` branches of
`HandleImpl.v3.h`; identical to the unique-pointer `HandleImpl.v2.h`)

A handle's storage holds a `std::unique_ptr<Body>`, embedded as
`Option Nat`.  `none` is the null pointer, i.e. the indirect moved-from
state. -/

namespace Handle

/-- Default constructor, indirect branch (`HandleImpl.v3.h` lines 84-88):
`::new (&storage_) BodyPtr(std::make_unique<Body>())`. -/
def mkInd {β : Type} (B : BodyType β) (h : Heap β) : Option Nat × Heap β :=
  let (a, h1) := h.alloc B.default
  (some a, h1)

/-- Copy constructor, indirect branch (`HandleImpl.v3.h` lines 98-109):
inspect the source's owned pointer; if non-null, clone the pointee into a
fresh allocation; if null, placement-construct a null pointer.
A dangling source address (impossible for a well-formed heap) is mapped to
the null pointer so that the function stays total. -/
def copyInd {β : Type} (src : Option Nat) (h : Heap β) : Option Nat × Heap β :=
  match src with
  | none => (none, h)
  | some a =>
    match h.lookup a with
    | some v =>
      let (a1, h1) := h.alloc v
      (some a1, h1)
    | none => (none, h)

/-- Move constructor, indirect branch (`HandleImpl.v3.h` lines 118-123):
`::new (&storage_) BodyPtr(std::move(src_p))` — the destination takes the
source's pointer value, the source's slot becomes null, and the heap is not
touched.  Returns (destination slot, source slot afterwards, heap). -/
def moveInd {β : Type} (src : Option Nat) (h : Heap β) :
    Option Nat × Option Nat × Heap β :=
  (src, none, h)

/-- Destructor, indirect branch (`HandleImpl.v3.h` lines 132-136):
`p.reset()` — delete the pointee if the pointer is non-null, no-op if null. -/
def dtorInd {β : Type} (p : Option Nat) (h : Heap β) : Heap β :=
  match p with
  | some a => h.free a
  | none => h

/-- `std::unique_ptr` move assignment `dst_p = std::move(src_p)`
(`HandleImpl.v3.h` lines 158-160), which is `dst.reset(src.release())`:
first the source slot is released (read and nulled), then the destination's
old pointee is deleted and the acquired pointer installed.  The two slots are
given as indices `di`, `si` into a slot store so that the aliased
self-assignment case `di = si` has its real semantics. -/
def uptrMoveAssign {β : Type} (slots : List (Option Nat)) (di si : Nat)
    (h : Heap β) : List (Option Nat) × Heap β :=
  let p := (slots.getD si none)
  let slots1 := slots.set si none
  let old := slots1.getD di none
  let slots2 := slots1.set di p
  let h1 := match old with
    | some a => h.free a
    | none => h
  (slots2, h1)

/-- Move assignment between two distinct handle objects, indirect branch:
the instantiation of `uptrMoveAssign` on a two-slot store.
Returns (destination slot, source slot afterwards, heap). -/
def moveAssignInd {β : Type} (dst src : Option Nat) (h : Heap β) :
    Option Nat × Option Nat × Heap β :=
  let (slots, h1) := uptrMoveAssign [dst, src] 0 1 h
  (slots.getD 0 none, slots.getD 1 none, h1)

/-- Copy assignment (`HandleImpl.v3.h` lines 139-146), indirect
instantiation: `auto tmp = other; *this = std::move(tmp);`.  The temporary is
a fresh object distinct from both operands; after the move assignment it is
null and its destruction is a no-op.  Returns (target slot afterwards, heap).
The `other` operand is taken by const reference and never written. -/
def copyAssignInd {β : Type} (dst src : Option Nat) (h : Heap β) :
    Option Nat × Heap β :=
  let (tmp, h1) := copyInd src h
  let (dst1, tmp1, h2) := moveAssignInd dst tmp h1
  let h3 := dtorInd tmp1 h2
  (dst1, h3)

/-- A body-copy step that may fail (`B`'s copy constructor throwing, or the
allocation inside `std::make_unique` failing): `none` models the exception.
`std::make_unique` frees its raw allocation when the body's copy constructor
throws, so a failed clone has no net heap effect. -/
def cloneF {β : Type} (copyFn : β → Option β) (v : β) (h : Heap β) :
    Option (Nat × Heap β) :=
  match copyFn v with
  | some v1 => some (h.alloc v1)
  | none => none

/-- Copy constructor, indirect branch, with a fallible body copy
(`HandleImpl.v3.h` lines 98-109).  `none` propagates the exception; in that
case no handle comes into existence. -/
def copyIndF {β : Type} (copyFn : β → Option β) (src : Option Nat)
    (h : Heap β) : Option (Option Nat × Heap β) :=
  match src with
  | none => some (none, h)
  | some a =>
    match h.lookup a with
    | some v =>
      match cloneF copyFn v h with
      | some (a1, h1) => some (some a1, h1)
      | none => none
    | none => some (none, h)

/-- Copy assignment with a fallible body copy (`HandleImpl.v3.h` lines
139-146).  The first statement `auto tmp = other;` is the only one that can
fail; if it throws, control leaves `operator=` before `*this` is touched, so
the error result carries the target slot and heap exactly as they were on
entry.  On success the move assignment from the temporary follows. -/
def copyAssignIndF {β : Type} (copyFn : β → Option β) (dst src : Option Nat)
    (h : Heap β) : Except (Option Nat × Heap β) (Option Nat × Heap β) :=
  match copyIndF copyFn src h with
  | none => .error (dst, h)
  | some (tmp, h1) =>
    let (dst1, tmp1, h2) := moveAssignInd dst tmp h1
    let h3 := dtorInd tmp1 h2
    .ok (dst1, h3)

/-- Result of `operator->`: either a valid pointer to the live body (we
return the body value it points to), or the debug assertion
`assert( result != nullptr )` fired, or the pointer dangles (impossible for
a well-formed heap). -/
inductive Deref (β : Type) where
  | ok (v : β)
  | assertFailed
  | dangling
  deriving Repr, DecidableEq

/-- `operator->`, indirect branch (`HandleImpl.v3.h` lines 172-176):
`assert( result != nullptr ); return result.get();`.  The non-const overload
(lines 179-186) delegates to this one, so both have the same behaviour. -/
def opArrowInd {β : Type} (p : Option Nat) (h : Heap β) : Deref β :=
  match p with
  | none => .assertFailed
  | some a =>
    match h.lookup a with
    | some v => .ok v
    | none => .dangling

end Handle

/-! ## Inline representation (`fits<Body, Size>` branches of
`HandleImpl.v3.h`)

The storage holds the body itself; the slot is always a live `B` value,
even after a move.  Operations never touch the heap; it is threaded through
unchanged so that the no-allocation claims are statable. -/

namespace Handle

/-- Default constructor, inline branch (`HandleImpl.v3.h` lines 81-83):
`::new (&storage_) Body()`. -/
def mkInl {β : Type} (B : BodyType β) (h : Heap β) : β × Heap β :=
  (B.default, h)

/-- Copy constructor, inline branch (`HandleImpl.v3.h` lines 95-97):
`::new (&storage_) Body(::body(other))`. -/
def copyInl {β : Type} (src : β) (h : Heap β) : β × Heap β :=
  (src, h)

/-- Move constructor, inline branch (`HandleImpl.v3.h` lines 115-117):
`::new (&storage_) Body(std::move(::body(other)))` — the destination gets the
source's value, the source slot is left holding `B`'s own moved-from value,
still a live object.  Returns (destination, source afterwards, heap). -/
def moveInl {β : Type} (B : BodyType β) (src : β) (h : Heap β) :
    β × β × Heap β :=
  (src, B.moved src, h)

/-- Destructor, inline branch (`HandleImpl.v3.h` lines 129-131):
`::body(*this).~body_type()` — always runs `B`'s destructor on the in-place
value; no heap interaction. -/
def dtorInl {β : Type} (_v : β) (h : Heap β) : Heap β :=
  h

/-- Move assignment, inline branch (`HandleImpl.v3.h` lines 152-154):
`::body(*this) = std::move(::body(other))` using `B`'s own move assignment.
Returns (destination, source afterwards, heap). -/
def moveAssignInl {β : Type} (B : BodyType β) (_dst src : β) (h : Heap β) :
    β × β × Heap β :=
  (src, B.moved src, h)

/-- Copy assignment (`HandleImpl.v3.h` lines 139-146), inline instantiation:
`auto tmp = other; *this = std::move(tmp);` followed by the temporary's
destruction.  Returns (target afterwards, heap). -/
def copyAssignInl {β : Type} (B : BodyType β) (dst src : β) (h : Heap β) :
    β × Heap β :=
  let (tmp, h1) := copyInl src h
  let (dst1, tmp1, h2) := moveAssignInl B dst tmp h1
  let h3 := dtorInl tmp1 h2
  (dst1, h3)

/-- `operator->`, inline branch (`HandleImpl.v3.h` lines 169-171): returns a
pointer to the in-place body with no precondition — always defined, also on a
moved-from handle. -/
def opArrowInl {β : Type} (v : β) : Deref β :=
  .ok v

end Handle

/-! ## Storage strategy selector (`fits`, `HandleImpl.v3.h` lines 58-60) -/

/-- Compile-time layout data of a C++ type: its size and alignment. -/
structure CType where
  size : Nat
  align : Nat
  deriving Repr, DecidableEq

/-- `fits<Body, Size>` (`HandleImpl.v3.h` lines 58-60):
`sizeof(Body) <= Size && alignof(Body) <= alignof(aligned_storage_t<Size>)`.
`alBuf` is the alignment of `std::aligned_storage_t<Size>`. -/
def fits (T : CType) (N : Nat) (alBuf : Nat) : Bool :=
  decide (T.size ≤ N) && decide (T.align ≤ alBuf)

/-- The two physical representations of `lib::Handle`. -/
inductive Rep where
  | inl
  | ind
  deriving Repr, DecidableEq

/-- The compile-time representation choice: every member function of
`lib::Handle<Body, Size>` branches with `if constexpr (::fits<Body, Size>)`,
so the representation is a function of the instantiation parameters only,
never of instance state. -/
def rep (B : CType) (N : Nat) (alBuf : Nat) : Rep :=
  if fits B N alBuf then .inl else .ind

/-- Whether the instantiation `lib::Handle<Body, Size>` compiles: the class
body requires `Size >= sizeof(void*)` (`HandleImpl.v3.h` lines 17-18), and
each indirect branch additionally requires
`static_assert( fits<BodyPtr, Size> )` (lines 86, 100, 120, 157), where
`P` is the layout of `std::unique_ptr<Body>`.  Inline instantiations have no
further requirement. -/
def instantiationCompiles (B P : CType) (N alBuf ptrSize : Nat) : Bool :=
  decide (ptrSize ≤ N) && (fits B N alBuf || fits P N alBuf)

end Lib

/-! ## `pdg::Survival` (`src/Survival.hpp`)

`Time` and `Probability` are `double` in the source; the claim about
`conditional_survival_prob_impl` concerns only control flow (comparison with
zero, a division) and the `assert`ed precondition, none of which depends on
floating-point rounding, so they are embedded over `ℚ`.  The virtual
`survival_prob_impl` is a parameter `S`; it is modelled as a total function
(a non-throwing implementation of the protocol). -/

namespace Pdg

/-- Outcome of a `pdg::Survival` member call: the returned probability, a
thrown `pdg::computation_error`, or a fired debug `assert`. -/
inductive SurvResult where
  | ok (q : ℚ)
  | compError
  | assertFailed
  deriving Repr, DecidableEq

/-- `pdg::Survival::survival_prob` (`Survival.hpp` lines 82-86):
`assert( T >= 0 ); return survival_prob_impl(T);`. -/
def survival_prob (S : ℚ → ℚ) (T : ℚ) : SurvResult :=
  if 0 ≤ T then .ok (S T) else .assertFailed

/-- The default `pdg::Survival::conditional_survival_prob_impl`
(`Survival.hpp` lines 102-110): assert `0 <= t` and `t <= T`, compute
`S_t = survival_prob(t)`, throw `computation_error` if `S_t == 0`, otherwise
return `survival_prob(T) / S_t`. -/
def conditional_survival_prob_impl (S : ℚ → ℚ) (T t : ℚ) : SurvResult :=
  if 0 ≤ t then
    if t ≤ T then
      match survival_prob S t with
      | .ok S_t =>
        if S_t = 0 then .compError
        else
          match survival_prob S T with
          | .ok S_T => .ok (S_T / S_t)
          | r => r
      | r => r
    else .assertFailed
  else .assertFailed

/-- `pdg::Survival::conditional_survival_prob` (`Survival.hpp` lines 88-94):
assert the precondition, then delegate to the virtual implementation; here
instantiated with the default implementation above. -/
def conditional_survival_prob (S : ℚ → ℚ) (T t : ℚ) : SurvResult :=
  if 0 ≤ t then
    if t ≤ T then conditional_survival_prob_impl S T t
    else .assertFailed
  else .assertFailed

end Pdg

/-! ## `lib::PrintableValueProtocol` (`src/PrintableValueProtocol.hpp`)

The protocol's value is its output to `stdout`; the only concrete
implementation in the file is the unnamed-namespace `NullPrintableValue`.
Dynamic dispatch is embedded as an inductive of the concrete classes, and a
`std::unique_ptr<PrintableValueProtocol>` as an `Option` of it (`none` =
null pointer). -/

namespace PV

/-- The concrete classes implementing `lib::PrintableValueProtocol` in
`PrintableValueProtocol.hpp`: only `NullPrintableValue` (lines 81-96). -/
inductive PrintableValueProtocol where
  | nullPrintableValue
  deriving Repr, DecidableEq

/-- `print_impl`, dispatched on the dynamic type; the result is the string
written to `stdout`.  `NullPrintableValue::print_impl` (lines 89-91) is
intentionally blank. -/
def print_impl : PrintableValueProtocol → String
  | .nullPrintableValue => ""

/-- `lib::PrintableValueProtocol::print` (lines 68-70): delegates to
`print_impl`. -/
def print (p : PrintableValueProtocol) : String :=
  print_impl p

/-- `clone_impl`, dispatched on the dynamic type.
`NullPrintableValue::clone_impl` (lines 93-96) returns
`std::make_unique<NullPrintableValue>()`, which is never null. -/
def clone_impl : PrintableValueProtocol → Option PrintableValueProtocol
  | .nullPrintableValue => some .nullPrintableValue

/-- `lib::PrintableValueProtocol::clone` (lines 72-75): delegates to
`clone_impl`. -/
def clone (p : PrintableValueProtocol) : Option PrintableValueProtocol :=
  clone_impl p

/-- `lib::PrintableValueProtocol::Default` (lines 100-101): a global
`NullPrintableValue`. -/
def Default : PrintableValueProtocol :=
  .nullPrintableValue

/-- `lib::PrintableValueProtocol::getDefault` (lines 103-106):
`return lib::PrintableValueProtocol::Default.clone();`. -/
def getDefault : Option PrintableValueProtocol :=
  clone Default

end PV

/-! ## Heap lemmas -/

namespace Lib

theorem lookupList_mem {β : Type} {l : List (Nat × β)} {a : Nat} {v : β}
    (hl : lookupList l a = some v) : (a, v) ∈ l := by
  induction l with
  | nil => simp [lookupList] at hl
  | cons p rest ih =>
    obtain ⟨k, w⟩ := p
    by_cases hk : k = a
    · subst hk
      simp [lookupList] at hl
      simp [hl]
    · simp [lookupList, hk] at hl
      exact List.mem_cons_of_mem _ (ih hl)

theorem Heap.lookup_lt_next {β : Type} {h : Heap β} {a : Nat} {v : β}
    (hwf : h.wf) (hl : h.lookup a = some v) : a < h.next :=
  hwf.1 (a, v) (lookupList_mem hl)

theorem Heap.lookup_alloc_self {β : Type} (h : Heap β) (v : β) :
    (h.alloc v).2.lookup (h.alloc v).1 = some v := by
  simp [Heap.alloc, Heap.lookup, lookupList]

theorem Heap.lookup_alloc_other {β : Type} (h : Heap β) (v : β) {a : Nat}
    (ha : a ≠ h.next) : (h.alloc v).2.lookup a = h.lookup a := by
  simp [Heap.alloc, Heap.lookup, lookupList, Ne.symm ha]

theorem lookupList_writeList_other {β : Type} (l : List (Nat × β)) (b : Nat)
    (w : β) {a : Nat} (hab : a ≠ b) :
    lookupList (writeList l b w) a = lookupList l a := by
  induction l with
  | nil => simp [writeList, lookupList]
  | cons p rest ih =>
    obtain ⟨k, u⟩ := p
    by_cases hk : k = b
    · subst hk
      simp [writeList, lookupList, Ne.symm hab, ih]
    · simp [writeList, lookupList, hk, ih]

theorem Heap.lookup_write_other {β : Type} (h : Heap β) (b : Nat) (w : β)
    {a : Nat} (hab : a ≠ b) : (h.write b w).lookup a = h.lookup a := by
  simpa [Heap.write, Heap.lookup] using lookupList_writeList_other h.mem b w hab

theorem lookupList_freeList_other {β : Type} (l : List (Nat × β)) (b : Nat)
    {a : Nat} (hab : a ≠ b) :
    lookupList (freeList l b) a = lookupList l a := by
  induction l with
  | nil => simp [freeList, lookupList]
  | cons p rest ih =>
    obtain ⟨k, u⟩ := p
    by_cases hk : k = b
    · subst hk
      simp [freeList, lookupList, Ne.symm hab, ih]
    · simp [freeList, lookupList, hk, ih]

theorem Heap.lookup_free_other {β : Type} (h : Heap β) (b : Nat) {a : Nat}
    (hab : a ≠ b) : (h.free b).lookup a = h.lookup a := by
  simpa [Heap.free, Heap.lookup] using lookupList_freeList_other h.mem b hab

theorem lookupList_freeList_self {β : Type} (l : List (Nat × β)) (a : Nat) :
    lookupList (freeList l a) a = none := by
  induction l with
  | nil => simp [freeList, lookupList]
  | cons p rest ih =>
    obtain ⟨k, u⟩ := p
    by_cases hk : k = a
    · simp [freeList, hk, ih]
    · simp [freeList, lookupList, hk, ih]

theorem Heap.lookup_free_self {β : Type} (h : Heap β) (a : Nat) :
    (h.free a).lookup a = none := by
  simpa [Heap.free, Heap.lookup] using lookupList_freeList_self h.mem a

end Lib

/-! ## Sample data used by witnesses -/

namespace Lib

/-- A tiny well-formed heap over `Nat` bodies with one live cell `0 ↦ 7`. -/
def sampleHeap : Heap Nat :=
  ⟨[(0, 7)], 1, 1, 0⟩

/-- A heap with two live cells `0 ↦ 7` and `1 ↦ 9`. -/
def sampleHeap2 : Heap Nat :=
  ⟨[(0, 7), (1, 9)], 2, 2, 0⟩

/-- A sample `Nat` body behaviour: default `0`, moved-from value `0`. -/
def sampleBody : BodyType Nat :=
  ⟨0, fun _ => 0⟩

end Lib

/-! ## Claim theorems -/

/-- Claim C1: For every body type and footprint with indirect representation,
copy-constructing from a moved-from source (null owned pointer) produces a
handle whose owned pointer is also null, leaving the heap untouched (the
null pointer is never dereferenced, nothing is copied or allocated); while
copy-constructing from a valid source heap-allocates exactly one new cell
holding a copy of the source's pointee (`HandleImpl.v3.h` lines 92-110,
`HandleImpl.v2.h` lines 57-64). -/
theorem copyCtorInd_null_propagation {β : Type} (h : Lib.Heap β) (a : Nat)
    (v : β) (hv : h.lookup a = some v) :
    Lib.Handle.copyInd (β := β) none h = (none, h) ∧
    Lib.Handle.copyInd (some a) h = (some h.next, (h.alloc v).2) ∧
    (Lib.Handle.copyInd (some a) h).2.lookup h.next = some v ∧
    (Lib.Handle.copyInd (some a) h).2.allocs = h.allocs + 1 := by
  have key : Lib.Handle.copyInd (some a) h = (some h.next, (h.alloc v).2) := by
    simp [Lib.Handle.copyInd, hv, Lib.Heap.alloc]
  refine ⟨rfl, key, ?_, ?_⟩
  · rw [key]
    simpa [Lib.Heap.alloc] using (h.lookup_alloc_self v)
  · rw [key]
    simp [Lib.Heap.alloc]

/-- Witness for `copyCtorInd_null_propagation` at the concrete heap
`sampleHeap` with the cell `0 ↦ 7`. -/
theorem copyCtorInd_null_propagation_witness :
    Lib.Handle.copyInd (β := Nat) none Lib.sampleHeap = (none, Lib.sampleHeap) ∧
    Lib.Handle.copyInd (some 0) Lib.sampleHeap
      = (some Lib.sampleHeap.next, (Lib.sampleHeap.alloc 7).2) ∧
    (Lib.Handle.copyInd (some 0) Lib.sampleHeap).2.lookup
      Lib.sampleHeap.next = some 7 ∧
    (Lib.Handle.copyInd (some 0) Lib.sampleHeap).2.allocs
      = Lib.sampleHeap.allocs + 1 :=
  copyCtorInd_null_propagation Lib.sampleHeap 0 7 (by decide)

/-- Claim C2: Move-constructing from a valid handle transfers the value: the
destination dereferences to the source's pre-move value.  Indirect: the
destination takes the pointer, the source slot becomes null and the heap is
untouched (no allocation, deallocation, or copy of the pointee); destroying
or copying the moved-from source afterwards is a no-op that cannot free the
body a second time, while destroying the destination frees it exactly once.
Inline: the destination gets the source's value and the source slot holds
`B`'s own moved-from value, still a live object whose later destruction is
heap-neutral (`HandleImpl.v3.h` lines 112-137). -/
theorem moveCtor_transfer {β : Type} (B : Lib.BodyType β) (h : Lib.Heap β)
    (a : Nat) (v s : β) (hv : h.lookup a = some v) :
    Lib.Handle.moveInd (some a) h = (some a, none, h) ∧
    Lib.Handle.opArrowInd (some a) h = .ok v ∧
    Lib.Handle.dtorInd (β := β) none h = h ∧
    Lib.Handle.copyInd (β := β) none h = (none, h) ∧
    (Lib.Handle.dtorInd (some a) h).deallocs = h.deallocs + 1 ∧
    (Lib.Handle.dtorInd (some a) h).lookup a = none ∧
    Lib.Handle.moveInl B s h = (s, B.moved s, h) ∧
    Lib.Handle.dtorInl (B.moved s) h = h := by
  refine ⟨rfl, ?_, rfl, rfl, ?_, ?_, rfl, rfl⟩
  · simp [Lib.Handle.opArrowInd, hv]
  · simp [Lib.Handle.dtorInd, Lib.Heap.free]
  · simpa [Lib.Handle.dtorInd] using h.lookup_free_self a

/-- Witness for `moveCtor_transfer` at `sampleHeap`, body value `7`, inline
slot value `3`. -/
theorem moveCtor_transfer_witness :
    Lib.Handle.moveInd (some 0) Lib.sampleHeap = (some 0, none, Lib.sampleHeap) ∧
    Lib.Handle.opArrowInd (some 0) Lib.sampleHeap = .ok 7 ∧
    Lib.Handle.dtorInd (β := Nat) none Lib.sampleHeap = Lib.sampleHeap ∧
    Lib.Handle.copyInd (β := Nat) none Lib.sampleHeap = (none, Lib.sampleHeap) ∧
    (Lib.Handle.dtorInd (some 0) Lib.sampleHeap).deallocs
      = Lib.sampleHeap.deallocs + 1 ∧
    (Lib.Handle.dtorInd (some 0) Lib.sampleHeap).lookup 0 = none ∧
    Lib.Handle.moveInl Lib.sampleBody 3 Lib.sampleHeap
      = (3, Lib.sampleBody.moved 3, Lib.sampleHeap) ∧
    Lib.Handle.dtorInl (Lib.sampleBody.moved 3) Lib.sampleHeap = Lib.sampleHeap :=
  moveCtor_transfer Lib.sampleBody Lib.sampleHeap 0 7 3 (by decide)

/-- Claim C7: `operator->`: dereferencing a null indirect handle trips the
debug assertion (`assert( result != nullptr )`, `HandleImpl.v3.h` line 174;
`HandleImpl.v2.h` lines 89, 97); under the precondition (non-null pointer to
a live body) the assertion never fires and a valid pointer to the owned body
is returned; the inline overload is always defined, returning the live
in-place value even for a moved-from handle. -/
theorem opArrow_contract {β : Type} (h : Lib.Heap β) (a : Nat) (v s : β)
    (hv : h.lookup a = some v) :
    Lib.Handle.opArrowInd (β := β) none h = .assertFailed ∧
    Lib.Handle.opArrowInd (some a) h = .ok v ∧
    Lib.Handle.opArrowInl s = .ok s := by
  refine ⟨rfl, ?_, rfl⟩
  simp [Lib.Handle.opArrowInd, hv]

/-- Witness for `opArrow_contract` at `sampleHeap`, inline value `5`. -/
theorem opArrow_contract_witness :
    Lib.Handle.opArrowInd (β := Nat) none Lib.sampleHeap = .assertFailed ∧
    Lib.Handle.opArrowInd (some 0) Lib.sampleHeap = .ok 7 ∧
    Lib.Handle.opArrowInl (5 : Nat) = .ok 5 :=
  opArrow_contract Lib.sampleHeap 0 7 5 (by decide)

/-- Claim C10: `lib::PrintableValueProtocol::getDefault()` returns a non-null
owning pointer (it is `some`) to an object that prints nothing to `stdout`;
it is exactly `PrintableValueProtocol::Default.clone()`, and `Default`
itself prints nothing (`PrintableValueProtocol.hpp` lines 89-106). -/
theorem getDefault_contract :
    PV.getDefault = some PV.Default ∧
    PV.getDefault.map PV.print = some "" ∧
    PV.getDefault = PV.clone PV.Default ∧
    PV.print PV.Default = "" :=
  ⟨rfl, rfl, rfl, rfl⟩

/-- Claim C3: Copy assignment is copy-construct-then-move-assign
(`HandleImpl.v3.h` lines 139-146, `HandleImpl.v2.h` lines 72-79): with a
value-preserving body copy, the target ends up owning a fresh body equal in
value to the source's and the source's body is unchanged; with a failing
body copy (throwing copy constructor or allocation failure) the exception
propagates out of the first statement and the target slot and heap are
exactly as on entry (strong failure guarantee).  The inline instantiation
likewise leaves the target equal to the source. -/
theorem copyAssign_strong_guarantee {β : Type} (Bi : Lib.BodyType β)
    (copyOk copyBad : β → Option β) (dst : Option Nat) (h : Lib.Heap β)
    (a : Nat) (v dv sv : β)
    (hwf : h.wf) (hv : h.lookup a = some v)
    (hdst : dst = none ∨ ∃ b w, dst = some b ∧ h.lookup b = some w ∧ b ≠ a)
    (hok : copyOk v = some v) (hbad : copyBad v = none) :
    Lib.Handle.copyAssignIndF copyOk dst (some a) h
      = .ok (some h.next, Lib.Handle.dtorInd dst (h.alloc v).2) ∧
    (Lib.Handle.dtorInd dst (h.alloc v).2).lookup h.next = some v ∧
    (Lib.Handle.dtorInd dst (h.alloc v).2).lookup a = some v ∧
    Lib.Handle.copyAssignIndF copyBad dst (some a) h = .error (dst, h) ∧
    Lib.Handle.copyAssignIndF copyOk dst none h
      = .ok (none, Lib.Handle.dtorInd dst h) ∧
    Lib.Handle.copyAssignInl Bi dv sv h = (sv, h) := by
  have ha : a < h.next := Lib.Heap.lookup_lt_next hwf hv
  have hane : a ≠ h.next := Nat.ne_of_lt ha
  have hself : (h.alloc v).2.lookup h.next = some v := h.lookup_alloc_self v
  have hother : (h.alloc v).2.lookup a = some v :=
    (Lib.Heap.lookup_alloc_other h v hane).trans hv
  refine ⟨?_, ?_, ?_, ?_, ?_, rfl⟩
  · simp only [Lib.Handle.copyAssignIndF, Lib.Handle.copyIndF,
      Lib.Handle.cloneF, hv, hok]
    cases dst <;> rfl
  · rcases hdst with hd | ⟨b, w, hd, hb, hba⟩
    · subst hd
      exact hself
    · subst hd
      have hbn : b ≠ h.next := Nat.ne_of_lt (Lib.Heap.lookup_lt_next hwf hb)
      calc (Lib.Handle.dtorInd (some b) (h.alloc v).2).lookup h.next
          = ((h.alloc v).2.free b).lookup h.next := rfl
        _ = (h.alloc v).2.lookup h.next :=
            (h.alloc v).2.lookup_free_other b (Ne.symm hbn)
        _ = some v := hself
  · rcases hdst with hd | ⟨b, w, hd, hb, hba⟩
    · subst hd
      exact hother
    · subst hd
      calc (Lib.Handle.dtorInd (some b) (h.alloc v).2).lookup a
          = ((h.alloc v).2.free b).lookup a := rfl
        _ = (h.alloc v).2.lookup a :=
            (h.alloc v).2.lookup_free_other b (Ne.symm hba)
        _ = some v := hother
  · simp only [Lib.Handle.copyAssignIndF, Lib.Handle.copyIndF,
      Lib.Handle.cloneF, hv, hbad]
  · cases dst <;> rfl

/-- Witness for `copyAssign_strong_guarantee` at `sampleHeap2` (cells
`0 ↦ 7`, `1 ↦ 9`): target owns cell 1, source owns cell 0. -/
theorem copyAssign_strong_guarantee_witness :
    Lib.Handle.copyAssignIndF some (some 1) (some 0) Lib.sampleHeap2
      = .ok (some Lib.sampleHeap2.next,
          Lib.Handle.dtorInd (some 1) (Lib.sampleHeap2.alloc 7).2) ∧
    (Lib.Handle.dtorInd (some 1) (Lib.sampleHeap2.alloc 7).2).lookup
      Lib.sampleHeap2.next = some 7 ∧
    (Lib.Handle.dtorInd (some 1) (Lib.sampleHeap2.alloc 7).2).lookup 0
      = some 7 ∧
    Lib.Handle.copyAssignIndF (fun _ => none) (some 1) (some 0)
      Lib.sampleHeap2 = .error (some 1, Lib.sampleHeap2) ∧
    Lib.Handle.copyAssignIndF some (some 1) none Lib.sampleHeap2
      = .ok (none, Lib.Handle.dtorInd (some 1) Lib.sampleHeap2) ∧
    Lib.Handle.copyAssignInl Lib.sampleBody 4 6 Lib.sampleHeap2
      = (6, Lib.sampleHeap2) :=
  copyAssign_strong_guarantee Lib.sampleBody some (fun _ => none) (some 1)
    Lib.sampleHeap2 0 7 4 6 (by decide) (by decide)
    (Or.inr ⟨1, 9, rfl, by decide, by decide⟩) rfl rfl

/-- Claim C4: The compile-time representation choice (`HandleImpl.v3.h` lines
58-60, 78-89): the representation is inline if and only if
`fits(B, N)` = `sizeof(B) <= N` and `alignof(B) <= alignof(buffer)` holds,
and indirect otherwise; an indirect instantiation compiles exactly when the
handle's own `Size >= sizeof(void*)` assertion and the
`static_assert( fits<BodyPtr, Size> )` both hold.  The choice `rep` is a
function of the instantiation parameters alone (every special member
branches with `if constexpr`), so no run-time branch depends on instance
state. -/
theorem fits_selects_representation (B B2 P : Lib.CType)
    (N alBuf ptrSize : Nat) (hB : Lib.fits B N alBuf = false)
    (hB2 : Lib.fits B2 N alBuf = true) :
    Lib.rep B N alBuf = .ind ∧
    Lib.rep B2 N alBuf = .inl ∧
    (Lib.rep B N alBuf = .inl ↔ Lib.fits B N alBuf = true) ∧
    (Lib.rep B2 N alBuf = .ind ↔ Lib.fits B2 N alBuf = false) ∧
    (Lib.instantiationCompiles B P N alBuf ptrSize = true ↔
      ptrSize ≤ N ∧ Lib.fits P N alBuf = true) := by
  refine ⟨?_, ?_, ?_, ?_, ?_⟩ <;>
    simp [Lib.rep, Lib.instantiationCompiles, hB, hB2]

/-- Witness for `fits_selects_representation`: a 100-byte body does not fit
a 32-byte footprint, an 8-byte body does, and the 8-byte owning pointer
fits, so the indirect instantiation compiles. -/
theorem fits_selects_representation_witness :
    Lib.rep ⟨100, 8⟩ 32 16 = .ind ∧
    Lib.rep ⟨8, 8⟩ 32 16 = .inl ∧
    (Lib.rep ⟨100, 8⟩ 32 16 = .inl ↔ Lib.fits ⟨100, 8⟩ 32 16 = true) ∧
    (Lib.rep ⟨8, 8⟩ 32 16 = .ind ↔ Lib.fits ⟨8, 8⟩ 32 16 = false) ∧
    (Lib.instantiationCompiles ⟨100, 8⟩ ⟨8, 8⟩ 32 16 8 = true ↔
      8 ≤ 32 ∧ Lib.fits ⟨8, 8⟩ 32 16 = true) :=
  fits_selects_representation ⟨100, 8⟩ ⟨8, 8⟩ ⟨8, 8⟩ 32 16 8
    (by decide) (by decide)

/-- Claim C5: Copy construction is a deep copy (`HandleImpl.v3.h` lines
92-110): the copy owns a fresh cell distinct from the source's, both
dereference to the same body value, and a mutation through either handle
leaves the value seen through the other unchanged; the inline copy is a
plain value copy with no shared storage. -/
theorem copyCtor_deep_independence {β : Type} (h : Lib.Heap β) (a : Nat)
    (v w s : β) (hwf : h.wf) (hv : h.lookup a = some v) :
    (Lib.Handle.copyInd (some a) h).1 = some h.next ∧
    h.next ≠ a ∧
    Lib.Handle.opArrowInd (some h.next) (Lib.Handle.copyInd (some a) h).2
      = .ok v ∧
    Lib.Handle.opArrowInd (some a) (Lib.Handle.copyInd (some a) h).2
      = .ok v ∧
    ((Lib.Handle.copyInd (some a) h).2.write a w).lookup h.next = some v ∧
    ((Lib.Handle.copyInd (some a) h).2.write h.next w).lookup a = some v ∧
    Lib.Handle.copyInl s h = (s, h) := by
  have ha : a < h.next := Lib.Heap.lookup_lt_next hwf hv
  have hna : h.next ≠ a := Nat.ne_of_gt ha
  have key : Lib.Handle.copyInd (some a) h = (some h.next, (h.alloc v).2) := by
    simp [Lib.Handle.copyInd, hv, Lib.Heap.alloc]
  have hself : (h.alloc v).2.lookup h.next = some v := by
    simpa [Lib.Heap.alloc] using h.lookup_alloc_self v
  have hother : (h.alloc v).2.lookup a = some v :=
    (Lib.Heap.lookup_alloc_other h v (Ne.symm hna)).trans hv
  refine ⟨by rw [key], hna, ?_, ?_, ?_, ?_, rfl⟩
  · rw [key]
    simp [Lib.Handle.opArrowInd, hself]
  · rw [key]
    simp [Lib.Handle.opArrowInd, hother]
  · rw [key]
    exact ((h.alloc v).2.lookup_write_other a w hna).trans hself
  · rw [key]
    exact ((h.alloc v).2.lookup_write_other h.next w (Ne.symm hna)).trans hother

/-- Witness for `copyCtor_deep_independence` at `sampleHeap`, mutating with
the value `100`, inline value `5`. -/
theorem copyCtor_deep_independence_witness :
    (Lib.Handle.copyInd (some 0) Lib.sampleHeap).1 = some Lib.sampleHeap.next ∧
    Lib.sampleHeap.next ≠ 0 ∧
    Lib.Handle.opArrowInd (some Lib.sampleHeap.next)
      (Lib.Handle.copyInd (some 0) Lib.sampleHeap).2 = .ok 7 ∧
    Lib.Handle.opArrowInd (some 0)
      (Lib.Handle.copyInd (some 0) Lib.sampleHeap).2 = .ok 7 ∧
    ((Lib.Handle.copyInd (some 0) Lib.sampleHeap).2.write 0 100).lookup
      Lib.sampleHeap.next = some 7 ∧
    ((Lib.Handle.copyInd (some 0) Lib.sampleHeap).2.write
      Lib.sampleHeap.next 100).lookup 0 = some 7 ∧
    Lib.Handle.copyInl (5 : Nat) Lib.sampleHeap = (5, Lib.sampleHeap) :=
  copyCtor_deep_independence Lib.sampleHeap 0 7 100 5 (by decide) (by decide)

/-- Helper: `unique_ptr` move assignment of a slot to itself
(`dst.reset(src.release())` with both operands the same object) changes
nothing and frees nothing: `release` nulls the slot before `reset` reads the
old value, so the old value seen by `reset` is null. -/
theorem uptrMoveAssign_self {β : Type} (slots : List (Option Nat)) (i : Nat)
    (h : Lib.Heap β) (hi : i < slots.length) :
    Lib.Handle.uptrMoveAssign slots i i h = (slots, h) := by
  have hget : (slots.set i none).getD i none = none := by
    have : (slots.set i none)[i]? = some none :=
      List.getElem?_set_eq_of_lt none (by simpa using hi)
    simp [List.getD_eq_getElem?_getD, this]
  have hp : slots.getD i none = slots[i] := by
    simp [List.getD_eq_getElem?_getD, List.getElem?_eq_getElem hi]
  have hsets : (slots.set i none).set i (slots.getD i none) = slots := by
    rw [List.set_set, hp]
    apply List.ext_getElem
    · simp
    · intro n h1 h2
      rw [List.getElem_set]
      split
      · subst ‹i = n›; rfl
      · rfl
  simp only [Lib.Handle.uptrMoveAssign, hget, hsets]

/-- Claim C6: Self-assignment safety (`HandleImpl.v3.h` lines 139-163).
Indirect self-copy-assignment (`h = h`) leaves the handle valid with its
body value unchanged (in a fresh cell; the old cell is released exactly
once: one allocation, one deallocation).  Indirect self-move-assignment is
the aliased `dst_p = std::move(src_p)`, whose acquire-then-release ordering
(`reset(release())`) makes it an exact no-op with no deallocation.  Inline
self-copy-assignment leaves the value unchanged. -/
theorem selfAssignment_safe {β : Type} (B : Lib.BodyType β) (h : Lib.Heap β)
    (slots : List (Option Nat)) (i a : Nat) (v s : β)
    (hwf : h.wf) (hv : h.lookup a = some v) (hi : i < slots.length) :
    (Lib.Handle.copyAssignInd (some a) (some a) h).1 = some h.next ∧
    (Lib.Handle.copyAssignInd (some a) (some a) h).2.lookup h.next
      = some v ∧
    (Lib.Handle.copyAssignInd (some a) (some a) h).2.allocs
      = h.allocs + 1 ∧
    (Lib.Handle.copyAssignInd (some a) (some a) h).2.deallocs
      = h.deallocs + 1 ∧
    Lib.Handle.uptrMoveAssign slots i i h = (slots, h) ∧
    Lib.Handle.copyAssignInl B s s h = (s, h) := by
  have ha : a < h.next := Lib.Heap.lookup_lt_next hwf hv
  have hane : a ≠ h.next := Nat.ne_of_lt ha
  have key : Lib.Handle.copyAssignInd (some a) (some a) h
      = (some h.next, (h.alloc v).2.free a) := by
    simp only [Lib.Handle.copyAssignInd, Lib.Handle.copyInd, hv,
      Lib.Handle.moveAssignInd, Lib.Handle.uptrMoveAssign,
      Lib.Handle.dtorInd]
    rfl
  refine ⟨by rw [key], ?_, ?_, ?_, uptrMoveAssign_self slots i h hi, rfl⟩
  · rw [key]
    calc ((h.alloc v).2.free a).lookup h.next
        = (h.alloc v).2.lookup h.next :=
          (h.alloc v).2.lookup_free_other a (Ne.symm hane)
      _ = some v := h.lookup_alloc_self v
  · rw [key]
    simp [Lib.Heap.free, Lib.Heap.alloc]
  · rw [key]
    simp [Lib.Heap.free, Lib.Heap.alloc]

/-- Witness for `selfAssignment_safe` at `sampleHeap`, a one-slot store
holding the pointer to cell 0, inline value `5`. -/
theorem selfAssignment_safe_witness :
    (Lib.Handle.copyAssignInd (some 0) (some 0) Lib.sampleHeap).1
      = some Lib.sampleHeap.next ∧
    (Lib.Handle.copyAssignInd (some 0) (some 0) Lib.sampleHeap).2.lookup
      Lib.sampleHeap.next = some 7 ∧
    (Lib.Handle.copyAssignInd (some 0) (some 0) Lib.sampleHeap).2.allocs
      = Lib.sampleHeap.allocs + 1 ∧
    (Lib.Handle.copyAssignInd (some 0) (some 0) Lib.sampleHeap).2.deallocs
      = Lib.sampleHeap.deallocs + 1 ∧
    Lib.Handle.uptrMoveAssign [some 0] 0 0 Lib.sampleHeap
      = ([some 0], Lib.sampleHeap) ∧
    Lib.Handle.copyAssignInl Lib.sampleBody 5 5 Lib.sampleHeap
      = (5, Lib.sampleHeap) :=
  selfAssignment_safe Lib.sampleBody Lib.sampleHeap [some 0] 0 0 7 5
    (by decide) (by decide) (by decide)

/-- Claim C8: Allocation discipline (`HandleImpl.v3.h` lines 78-137).
Inline instantiations: default construction, copy, move, and destruction
never touch the heap.  Indirect instantiations: default construction and
copy of a valid source each perform exactly one allocation and no
deallocation; a move performs neither; destroying a valid handle performs
exactly one deallocation; destroying a moved-from (null) handle performs
none; move-assigning over a handle owning a body releases that body with
exactly one deallocation and no allocation. -/
theorem allocation_discipline {β : Type} (B : Lib.BodyType β)
    (h : Lib.Heap β) (a : Nat) (v s : β) (q : Option Nat)
    (hv : h.lookup a = some v) :
    Lib.Handle.mkInl B h = (B.default, h) ∧
    Lib.Handle.copyInl s h = (s, h) ∧
    Lib.Handle.moveInl B s h = (s, B.moved s, h) ∧
    Lib.Handle.dtorInl s h = h ∧
    (Lib.Handle.mkInd B h).2.allocs = h.allocs + 1 ∧
    (Lib.Handle.mkInd B h).2.deallocs = h.deallocs ∧
    (Lib.Handle.copyInd (some a) h).2.allocs = h.allocs + 1 ∧
    (Lib.Handle.copyInd (some a) h).2.deallocs = h.deallocs ∧
    Lib.Handle.moveInd (some a) h = (some a, none, h) ∧
    (Lib.Handle.dtorInd (some a) h).deallocs = h.deallocs + 1 ∧
    (Lib.Handle.dtorInd (some a) h).allocs = h.allocs ∧
    Lib.Handle.dtorInd (β := β) none h = h ∧
    (Lib.Handle.moveAssignInd (some a) q h).2.2.deallocs = h.deallocs + 1 ∧
    (Lib.Handle.moveAssignInd (some a) q h).2.2.allocs = h.allocs := by
  refine ⟨rfl, rfl, rfl, rfl, rfl, rfl, ?_, ?_, rfl, ?_, ?_, rfl, ?_, ?_⟩
  · simp [Lib.Handle.copyInd, hv, Lib.Heap.alloc]
  · simp [Lib.Handle.copyInd, hv, Lib.Heap.alloc]
  · simp [Lib.Handle.dtorInd, Lib.Heap.free]
  · simp [Lib.Handle.dtorInd, Lib.Heap.free]
  · simp [Lib.Handle.moveAssignInd, Lib.Handle.uptrMoveAssign, Lib.Heap.free]
  · simp [Lib.Handle.moveAssignInd, Lib.Handle.uptrMoveAssign, Lib.Heap.free]

/-- Witness for `allocation_discipline` at `sampleHeap`, inline value `3`,
move-assignment source pointer `some 0` replaced over cell 0. -/
theorem allocation_discipline_witness :
    Lib.Handle.mkInl Lib.sampleBody Lib.sampleHeap
      = (Lib.sampleBody.default, Lib.sampleHeap) ∧
    Lib.Handle.copyInl (3 : Nat) Lib.sampleHeap = (3, Lib.sampleHeap) ∧
    Lib.Handle.moveInl Lib.sampleBody 3 Lib.sampleHeap
      = (3, Lib.sampleBody.moved 3, Lib.sampleHeap) ∧
    Lib.Handle.dtorInl (3 : Nat) Lib.sampleHeap = Lib.sampleHeap ∧
    (Lib.Handle.mkInd Lib.sampleBody Lib.sampleHeap).2.allocs
      = Lib.sampleHeap.allocs + 1 ∧
    (Lib.Handle.mkInd Lib.sampleBody Lib.sampleHeap).2.deallocs
      = Lib.sampleHeap.deallocs ∧
    (Lib.Handle.copyInd (some 0) Lib.sampleHeap).2.allocs
      = Lib.sampleHeap.allocs + 1 ∧
    (Lib.Handle.copyInd (some 0) Lib.sampleHeap).2.deallocs
      = Lib.sampleHeap.deallocs ∧
    Lib.Handle.moveInd (some 0) Lib.sampleHeap
      = (some 0, none, Lib.sampleHeap) ∧
    (Lib.Handle.dtorInd (some 0) Lib.sampleHeap).deallocs
      = Lib.sampleHeap.deallocs + 1 ∧
    (Lib.Handle.dtorInd (some 0) Lib.sampleHeap).allocs
      = Lib.sampleHeap.allocs ∧
    Lib.Handle.dtorInd (β := Nat) none Lib.sampleHeap = Lib.sampleHeap ∧
    (Lib.Handle.moveAssignInd (some 0) (some 0) Lib.sampleHeap).2.2.deallocs
      = Lib.sampleHeap.deallocs + 1 ∧
    (Lib.Handle.moveAssignInd (some 0) (some 0) Lib.sampleHeap).2.2.allocs
      = Lib.sampleHeap.allocs :=
  allocation_discipline Lib.sampleBody Lib.sampleHeap 0 7 3 (some 0)
    (by decide)

/-- Claim C9: The default `pdg::Survival::conditional_survival_prob_impl`
(`Survival.hpp` lines 102-110): under the debug-checked precondition
`0 <= t <= T` it throws `pdg::computation_error` exactly when
`survival_prob(t) == 0` and otherwise returns
`survival_prob(T) / survival_prob(t)`; outside the precondition the debug
assertion fires. -/
theorem conditional_survival_default_impl (S : ℚ → ℚ) (T t T2 t2 : ℚ)
    (h0 : 0 ≤ t) (ht : t ≤ T) (hbad : ¬(0 ≤ t2 ∧ t2 ≤ T2)) :
    Pdg.conditional_survival_prob_impl S T t
      = (if S t = 0 then .compError else .ok (S T / S t)) ∧
    (Pdg.conditional_survival_prob_impl S T t = .compError ↔ S t = 0) ∧
    Pdg.conditional_survival_prob_impl S T2 t2 = .assertFailed := by
  have hT : 0 ≤ T := le_trans h0 ht
  have key : Pdg.conditional_survival_prob_impl S T t
      = (if S t = 0 then .compError else .ok (S T / S t)) := by
    simp [Pdg.conditional_survival_prob_impl, Pdg.survival_prob, h0, ht, hT]
  refine ⟨key, ?_, ?_⟩
  · rw [key]
    by_cases hS : S t = 0 <;> simp [hS]
  · rw [Classical.not_and_iff_or_not_not] at hbad
    rcases hbad with hb | hb
    · simp [Pdg.conditional_survival_prob_impl, hb]
    · by_cases h02 : 0 ≤ t2
      · simp [Pdg.conditional_survival_prob_impl, h02, hb]
      · simp [Pdg.conditional_survival_prob_impl, h02]

/-- Witness for `conditional_survival_default_impl` at
`S = (fun q => 1 - q / 4)`, `T = 2`, `t = 1`, violated precondition at
`t2 = -1`, `T2 = 0`. -/
theorem conditional_survival_default_impl_witness :
    Pdg.conditional_survival_prob_impl (fun q => 1 - q / 4) 2 1
      = (if (1 : ℚ) - 1 / 4 = 0 then .compError
         else .ok ((1 - 2 / 4) / (1 - 1 / 4))) ∧
    (Pdg.conditional_survival_prob_impl (fun q => 1 - q / 4) 2 1
      = .compError ↔ (1 : ℚ) - 1 / 4 = 0) ∧
    Pdg.conditional_survival_prob_impl (fun q => 1 - q / 4) 0 (-1)
      = .assertFailed :=
  conditional_survival_default_impl (fun q => 1 - q / 4) 2 1 0 (-1)
    (by norm_num) (by norm_num) (by norm_num)
